import Mathlib

/-!
Verification of the caching and request-throttling subsystem of the
api-movie-app backend (cache service, invalidation coordinator, and
sliding-window rate-limit middleware), via a shallow embedding of the
TypeScript source into Lean.

The key-value store (Redis) is modelled as an association list of
entries carrying an absolute expiry instant; time is an explicit `Int`
parameter (milliseconds, as produced by `Date.now()`).  Every store
operation of the source carries a `try/catch` that swallows store
errors; this is embedded by giving each operation an explicit `ok`
flag describing whether the store round-trip succeeded, with the
`ok = false` branch reproducing the source's catch branch.
-/

/-- JavaScript values that flow through `JSON.stringify` / `JSON.parse`
at the cache boundary (the payload shapes used by the services:
null, booleans, integers and strings; composite results are cached as
opaque serialized strings as well, which atoms suffice to exercise). -/
inductive JVal where
  | jnull
  | jbool (b : Bool)
  | jnum (n : Int)
  | jstr (s : String)
deriving DecidableEq, Repr

/-- JavaScript truthiness of a `JVal` (`if (cached) return cached`). -/
def jsTruthy : JVal → Bool
  | .jnull => false
  | .jbool b => b
  | .jnum n => n != 0
  | .jstr s => s != ""

/-- Escaping performed by `JSON.stringify` on the characters that the
embedded string values may contain (quote and backslash). -/
def escapeChars : List Char → List Char
  | [] => []
  | c :: rest =>
    if c = '"' ∨ c = '\\' then '\\' :: c :: escapeChars rest
    else c :: escapeChars rest

/-- `JSON.stringify` restricted to the embedded value forms. -/
def jsonStringify : JVal → String
  | .jnull => "null"
  | .jbool true => "true"
  | .jbool false => "false"
  | .jnum n => toString n
  | .jstr s => "\"" ++ String.mk (escapeChars s.data) ++ "\""

/-- Parse a run of decimal digits; fails on a non-digit or on empty input. -/
def parseNatChars (cs : List Char) : Option Nat :=
  if cs ≠ [] ∧ cs.all Char.isDigit then
    some (cs.foldl (fun a c => a * 10 + (c.toNat - 48)) 0)
  else none

/-- Parse the interior of a JSON string literal up to and including the
closing quote; handles the `\"` and `\\` escapes produced by
`jsonStringify` and fails on anything unterminated or malformed. -/
def parseQuoted : List Char → Option (List Char)
  | [] => none
  | '"' :: rest => if rest.isEmpty then some [] else none
  | '\\' :: c :: rest =>
    if c = '"' ∨ c = '\\' then (parseQuoted rest).map (c :: ·) else none
  | '\\' :: [] => none
  | c :: rest => (parseQuoted rest).map (c :: ·)

/-- `JSON.parse`, modelled on the payload forms produced by
`jsonStringify`; any other input is conservatively rejected, which in
the embedding plays the role of a deserialization failure (the thrown
`SyntaxError` of the runtime parser). -/
def jsonParse (s : String) : Option JVal :=
  if s = "null" then some .jnull
  else if s = "true" then some (.jbool true)
  else if s = "false" then some (.jbool false)
  else
    match s.data with
    | '"' :: rest => (parseQuoted rest).map (fun l => .jstr (String.mk l))
    | '-' :: rest => (parseNatChars rest).map (fun n => .jnum (-(n : Int)))
    | cs => (parseNatChars cs).map (fun n => .jnum (n : Int))

/-- Redis glob matching for the pattern forms the codebase uses
(literal characters and the `*` wildcard), structurally recursive on
the pattern: a `*` matches any suffix split of the subject. -/
def globChars : List Char → List Char → Bool
  | [], s => s.isEmpty
  | '*' :: ps, s => s.tails.any (fun t => globChars ps t)
  | c :: ps, s =>
    match s with
    | [] => false
    | c' :: s' => c == c' && globChars ps s'

/-- Whether a Redis key matches a glob pattern. -/
def globMatch (pat key : String) : Bool :=
  globChars pat.data key.data

/-- One entry of the key-value store: a key, the serialized payload,
and the absolute instant (ms) at which the entry expires. -/
structure CEntry where
  key : String
  payload : String
  expiresAt : Int
deriving DecidableEq, Repr

/-- The state of the key-value store's string keyspace. -/
abbrev Store := List CEntry

/-- `redis.get`: the payload stored under a key, `none` when the key is
absent or its TTL has elapsed (Redis expires lazily; an expired entry
is indistinguishable from an absent one). -/
def redisGet (now : Int) (s : Store) (k : String) : Option String :=
  (s.find? (fun e => e.key == k && decide (now < e.expiresAt))).map (·.payload)

namespace CacheService

/-- Cache prefixes for the different entities (source `PREFIXES`). -/
def PREFIXES.MOVIE : String := "movie:"
def PREFIXES.MOVIES_LIST : String := "movies:list:"
def PREFIXES.SEARCH : String := "search:"
def PREFIXES.USER : String := "user:"
def PREFIXES.COMMENTS : String := "comments:"
def PREFIXES.RATINGS : String := "ratings:"
def PREFIXES.FAVORITES : String := "favorites:"
def PREFIXES.WATCHED : String := "watched:"

/-- Default TTL values in seconds (source `TTL`). -/
def TTL.SHORT : Nat := 60
def TTL.MEDIUM : Nat := 300
def TTL.LONG : Nat := 3600
def TTL.DAY : Nat := 86400

/-- `CacheService.get`: fetch and `JSON.parse` a payload.  The JS
return type conflates the miss sentinel `null` with a parsed `null`,
so the embedding returns a `JVal` with `.jnull` standing for both.
`ok = false` is the catch branch of a failed store round-trip.
Mirrors: missing key → `null`; falsy (empty) payload → `null`;
`JSON.parse` failure → `null` (caught); otherwise the parsed value. -/
def get (ok : Bool) (now : Int) (s : Store) (k : String) : JVal :=
  match (if ok then Except.ok (redisGet now s k) else Except.error ()) with
  | .error _ => .jnull
  | .ok none => .jnull
  | .ok (some p) => if p = "" then .jnull else (jsonParse p).getD .jnull

/-- `CacheService.set`: `redis.setex(key, ttl, JSON.stringify(value))`.
SETEX overwrites the previous value of the key unconditionally; a
failed round-trip is swallowed and leaves the store unchanged. -/
def set (ok : Bool) (now : Int) (k : String) (v : JVal) (ttl : Nat)
    (s : Store) : Store :=
  if ok then
    ⟨k, jsonStringify v, now + (ttl : Int) * 1000⟩ ::
      s.filter (fun e => e.key != k)
  else s

/-- `CacheService.delete`: `redis.del(key)`; absence of the key is not
an error, and a failed round-trip is swallowed. -/
def delete (ok : Bool) (k : String) (s : Store) : Store :=
  if ok then s.filter (fun e => e.key != k) else s

/-- `CacheService.deletePattern`: the net effect of the SCAN/DEL loop —
every key matching the glob is removed and the number of removed keys
is returned; the catch branch returns 0 leaving the store unchanged. -/
def deletePattern (ok : Bool) (pat : String) (s : Store) : Store × Nat :=
  if ok then
    (s.filter (fun e => !globMatch pat e.key),
     (s.filter (fun e => globMatch pat e.key)).length)
  else (s, 0)

/-- `CacheService.invalidateMovie`: purge the single-movie entry and
every list/search/per-movie-comment/per-movie-rating cache.  The
source fires the five deletions with `Promise.all`; on a deterministic
store the net effect is their composition. -/
def invalidateMovie (movieId : String) (s : Store) : Store :=
  let s1 := delete true (PREFIXES.MOVIE ++ movieId) s
  let s2 := (deletePattern true (PREFIXES.MOVIES_LIST ++ "*") s1).1
  let s3 := (deletePattern true (PREFIXES.SEARCH ++ "*") s2).1
  let s4 := (deletePattern true (PREFIXES.COMMENTS ++ "movie:" ++ movieId ++ "*") s3).1
  (deletePattern true (PREFIXES.RATINGS ++ "movie:" ++ movieId ++ "*") s4).1

/-- `CacheService.invalidateSearches`. -/
def invalidateSearches (s : Store) : Store :=
  (deletePattern true (PREFIXES.SEARCH ++ "*") s).1

/-- `CacheService.invalidateLists`. -/
def invalidateLists (s : Store) : Store :=
  (deletePattern true (PREFIXES.MOVIES_LIST ++ "*") s).1

/-- `CacheService.invalidateUser`: purge the user entry and every
per-user favorites/watched/ratings/comments cache. -/
def invalidateUser (userId : String) (s : Store) : Store :=
  let s1 := delete true (PREFIXES.USER ++ userId) s
  let s2 := (deletePattern true (PREFIXES.FAVORITES ++ "user:" ++ userId ++ "*") s1).1
  let s3 := (deletePattern true (PREFIXES.WATCHED ++ "user:" ++ userId ++ "*") s2).1
  let s4 := (deletePattern true (PREFIXES.RATINGS ++ "user:" ++ userId ++ "*") s3).1
  (deletePattern true (PREFIXES.COMMENTS ++ "user:" ++ userId ++ "*") s4).1

/-- `CacheService.generateKey`: sort the parameter record's keys, then
serialize the re-built record (`JSON.stringify` emits the fields in
insertion order, i.e. sorted order).  Parameter records are embedded
as association lists with distinct keys. -/
def generateKey (ns : String) (params : List (String × JVal)) : String :=
  let sortedKeys := (params.map Prod.fst).insertionSort (· ≤ ·)
  ns ++ "\x7b" ++
    String.intercalate ","
      (sortedKeys.map
        (fun k =>
          jsonStringify (.jstr k) ++ ":" ++
            jsonStringify ((params.lookup k).getD .jnull))) ++
    "\x7d"

end CacheService

/-- Configuration of one rate-limiter instance (source `RateLimitOptions`;
the key derivation and skip predicate act before the per-key state
machine and are not part of it). -/
structure RateLimitOptions where
  max : Nat
  timeWindow : Nat
  errorMessage : String := "Too many requests, please try again later"

/-- The Redis sorted set behind one rate-limit key, together with the
absolute instant at which the key itself expires (the `EXPIRE` safety
net); Redis expires lazily, so an elapsed expiry reads as an empty set. -/
structure ZState where
  entries : List (Int × String)
  expiresAt : Int
deriving DecidableEq, Repr

/-- The empty/absent rate-limit key. -/
def ZState.empty : ZState := ⟨[], 0⟩

/-- The body of the 429 response. -/
structure RlBody where
  statusCode : Nat
  error : String
  message : String
  retryAfter : Nat
deriving DecidableEq, Repr

/-- The observable outcome of one pass through the middleware: whether
the request was admitted, the status code sent (none when the
middleware falls through to the route), the rate-limit headers, and
the JSON body on rejection. -/
structure RlResponse where
  admitted : Bool
  statusCode : Option Nat
  limit : Option Nat
  remaining : Option Int
  reset : Option Int
  retryAfter : Option Nat
  body : Option RlBody
deriving DecidableEq, Repr

/-- The member string `${now}-${Math.random()}` added to the sorted
set; the random suffix is an explicit nonce input. -/
def rlMember (now : Int) (nonce : String) : String :=
  toString now ++ "-" ++ nonce

/-- `ZADD key now member`: update the member's score if it is already
present, otherwise insert it. -/
def zadd (l : List (Int × String)) (score : Int) (member : String) :
    List (Int × String) :=
  if l.any (fun e => e.2 == member) then
    l.map (fun e => if e.2 == member then (score, member) else e)
  else l ++ [(score, member)]

/-- The sorted set visible to the pipeline after lazy expiry and
`ZREMRANGEBYSCORE key 0 windowStart` (both bounds inclusive). -/
def rlPrune (cfg : RateLimitOptions) (st : ZState) (now : Int) :
    List (Int × String) :=
  (if st.expiresAt ≤ now then [] else st.entries).filter
    (fun e => !(decide (0 ≤ e.1) && decide (e.1 ≤ now - (cfg.timeWindow : Int) * 1000)))

/-- The pre-insertion in-window count the middleware reads from the
pipeline (`ZCARD` after the removal, before the `ZADD`). -/
def rlPreCount (cfg : RateLimitOptions) (st : ZState) (now : Int) : Nat :=
  (rlPrune cfg st now).length

/-- The response the middleware produces for a given pre-insertion
count: headers `X-RateLimit-Limit`, `X-RateLimit-Remaining`
(`Math.max(0, max - count - 1)`) and `X-RateLimit-Reset` always; when
`count >= max`, a 429 with `Retry-After = Math.ceil(timeWindow)` and
the JSON error body, otherwise fall-through (admission). -/
def rlResponse (cfg : RateLimitOptions) (now : Int) (count : Nat) : RlResponse :=
  if cfg.max ≤ count then
    { admitted := false
      statusCode := some 429
      limit := some cfg.max
      remaining := some (max 0 ((cfg.max : Int) - (count : Int) - 1))
      reset := some (now + (cfg.timeWindow : Int) * 1000)
      retryAfter := some cfg.timeWindow
      body := some ⟨429, "Too Many Requests", cfg.errorMessage, cfg.timeWindow⟩ }
  else
    { admitted := true
      statusCode := none
      limit := some cfg.max
      remaining := some (max 0 ((cfg.max : Int) - (count : Int) - 1))
      reset := some (now + (cfg.timeWindow : Int) * 1000)
      retryAfter := none
      body := none }

/-- The fail-open outcome (`pipeline.exec()` returned no results, or
any step of the middleware threw): the request proceeds, no headers
are set, nothing is rejected. -/
def rlFailOpen : RlResponse :=
  { admitted := true, statusCode := none, limit := none, remaining := none
    reset := none, retryAfter := none, body := none }

/-- One pass of `rateLimitMiddleware` for one request against one key:
atomically remove the entries scored in `[0, now - timeWindow*1000]`,
read the remaining count, add the member for `now` (this happens for
every request, also the ones about to be rejected), refresh the key's
expiry to `timeWindow`, then judge the count.  `ok = false` is the
fail-open branch. -/
def rateLimitStep (cfg : RateLimitOptions) (ok : Bool) (st : ZState)
    (now : Int) (nonce : String) : ZState × RlResponse :=
  if ok then
    let pruned := rlPrune cfg st now
    let count := pruned.length
    let entries := zadd pruned now (rlMember now nonce)
    (⟨entries, now + (cfg.timeWindow : Int) * 1000⟩, rlResponse cfg now count)
  else (st, rlFailOpen)

/-- A sequence of requests (each an instant plus the random nonce of
its member string) processed against one key; the atomicity of each
pipeline means concurrent requests are serialized in some order, which
this list order represents. -/
def rateLimitRun (cfg : RateLimitOptions) (st : ZState) :
    List (Int × String) → ZState × List RlResponse
  | [] => (st, [])
  | (t, n) :: rest =>
    let x := rateLimitStep cfg true st t n
    let r := rateLimitRun cfg x.1 rest
    (r.1, x.2 :: r.2)

/-- The responses of a burst during which no entry is ever pruned:
the i-th request is judged against the pre-insertion count `k + i`,
where `k` is the number of entries already in the window. -/
def burstResponses (cfg : RateLimitOptions) : Nat → List (Int × String) → List RlResponse
  | _, [] => []
  | k, (t, _) :: rest => rlResponse cfg t k :: burstResponses cfg (k + 1) rest

/-- The key expiry left behind by a sequence of requests: each request
refreshes it to its own instant plus the window duration. -/
def rlExpAfter (cfg : RateLimitOptions) : Int → List (Int × String) → Int
  | x, [] => x
  | _, (t, _) :: rest => rlExpAfter cfg (t + (cfg.timeWindow : Int) * 1000) rest

/-- `MovieService.updateMovie` (cache-relevant effect): after the
persistence write commits, `cacheService.invalidateMovie(id)` purges
the movie entry and every list/search/per-movie cache; a missing movie
raises `MovieNotFoundError` instead.  The Meilisearch synchronization
is fire-and-forget and touches no cache key. -/
def MovieService.updateMovie (movieExists : Bool) (id : String)
    (s : Store) : Except String Store :=
  if movieExists then .ok (CacheService.invalidateMovie id s)
  else .error "MovieNotFoundError"

/-- The key under which `RatingService.getUserRatings` caches a page of
a user's ratings. -/
def RatingService.userRatingsKey (userId : String) (page : Nat) : String :=
  CacheService.PREFIXES.RATINGS ++ "user:" ++ userId ++ ":page:" ++ toString page

/-- `RatingService.getUserRatings`: serve page 1 from cache when the
cached value is truthy, otherwise read the repository (the read result
is a parameter) and cache page 1 with TTL MEDIUM. -/
def RatingService.getUserRatings (now : Int) (userId : String) (page : Nat)
    (dbResult : JVal) (s : Store) : JVal × Store :=
  let key := RatingService.userRatingsKey userId page
  if page = 1 ∧ jsTruthy (CacheService.get true now s key) then
    (CacheService.get true now s key, s)
  else
    (dbResult,
      if page = 1 then CacheService.set true now key dbResult CacheService.TTL.MEDIUM s
      else s)

/-- The cache invalidation performed by `RatingService.upsertRating`
and `RatingService.deleteRating` after the persistence write:
`invalidateMovie(movieId)` together with a delete of the exact key
`ratings:user:${userId}` (note: not a pattern delete). -/
def RatingService.invalidateAfterWrite (userId movieId : String)
    (s : Store) : Store :=
  CacheService.delete true (CacheService.PREFIXES.RATINGS ++ "user:" ++ userId)
    (CacheService.invalidateMovie movieId s)

/-! ## General lemmas about the store model -/

/-- Filtering twice with the same predicate filters once. -/
lemma filter_self_idem {α : Type} (p : α → Bool) (l : List α) :
    List.filter p (List.filter p l) = List.filter p l := by
  rw [List.filter_filter]
  exact List.filter_congr (fun a _ => Bool.and_self (p a))

/-- A value can be looked up identically in two association lists that
are permutations of each other, provided keys are not duplicated. -/
lemma lookup_eq_of_perm {l1 l2 : List (String × JVal)} (h : l1.Perm l2) :
    (l1.map Prod.fst).Nodup → ∀ k, l1.lookup k = l2.lookup k := by
  induction h with
  | nil => intro _ k; rfl
  | cons x h' ih =>
    intro hnd k
    obtain ⟨x1, x2⟩ := x
    have hnd' : _ := (List.nodup_cons.mp hnd).2
    by_cases hk : k == x1
    · simp [List.lookup, hk]
    · simp only [List.lookup, hk]
      exact ih hnd' k
  | swap x y l =>
    intro hnd k
    obtain ⟨x1, x2⟩ := x
    obtain ⟨y1, y2⟩ := y
    have hxy : y1 ≠ x1 := by
      have := (List.nodup_cons.mp hnd).1
      intro he
      exact this (by simp [he])
    by_cases h1 : k == x1 <;> by_cases h2 : k == y1 <;>
      simp only [List.lookup, h1, h2]
    exact absurd (((beq_iff_eq.mp h2).symm.trans (beq_iff_eq.mp h1))) hxy
  | trans h12 h23 ih1 ih2 =>
    intro hnd k
    exact (ih1 hnd k).trans (ih2 ((h12.map Prod.fst).nodup hnd) k)

/-- Sorting with `≤` on `String` is invariant under permutation of the
input (the order is total and antisymmetric, so the sorted list is the
unique representative of the multiset). -/
lemma insertionSort_eq_of_perm {a b : List String} (h : a.Perm b) :
    a.insertionSort (· ≤ ·) = b.insertionSort (· ≤ ·) :=
  List.eq_of_perm_of_sorted
    ((List.perm_insertionSort _ a).trans (h.trans (List.perm_insertionSort _ b).symm))
    (List.sorted_insertionSort _ a) (List.sorted_insertionSort _ b)

/-! ## C1 -/

/-- C1: cache-key derivation is invariant under permutation of the
parameter record's fields: for any namespace `ns` and any two
parameter lists holding the same key/value pairs in any order (keys
unduplicated, as in a JS object), `generateKey` returns the same
string. -/
theorem generateKey_order_invariant (ns : String)
    (P1 P2 : List (String × JVal)) (hperm : P1.Perm P2)
    (hnd : (P1.map Prod.fst).Nodup) :
    CacheService.generateKey ns P1 = CacheService.generateKey ns P2 := by
  simp only [CacheService.generateKey]
  rw [insertionSort_eq_of_perm (hperm.map Prod.fst)]
  have hmap :
      ((P2.map Prod.fst).insertionSort (· ≤ ·)).map
          (fun k => jsonStringify (.jstr k) ++ ":" ++
            jsonStringify ((P1.lookup k).getD .jnull))
        = ((P2.map Prod.fst).insertionSort (· ≤ ·)).map
          (fun k => jsonStringify (.jstr k) ++ ":" ++
            jsonStringify ((P2.lookup k).getD .jnull)) :=
    List.map_congr_left (fun k _ => by rw [lookup_eq_of_perm hperm hnd k])
  rw [hmap]

/-- Witness for C1 at a concrete pair of permuted parameter records. -/
theorem generateKey_order_invariant_witness :
    ([("page", JVal.jnum 1), ("limit", JVal.jnum 20)]).Perm
        [("limit", JVal.jnum 20), ("page", JVal.jnum 1)] ∧
      CacheService.generateKey "movies:list:"
          [("page", JVal.jnum 1), ("limit", JVal.jnum 20)]
        = CacheService.generateKey "movies:list:"
          [("limit", JVal.jnum 20), ("page", JVal.jnum 1)] :=
  ⟨by decide,
   generateKey_order_invariant "movies:list:" _ _ (by decide) (by decide)⟩


/-! ## C6 -/

/-- C6: `get` returns absent (`null`) both when the key is missing from
the store and when the stored payload fails to deserialize; in the
corrupt case nothing is thrown and no partially parsed value escapes —
the entry is indistinguishable from a miss. -/
theorem cacheGet_absent_and_corrupt_are_miss (now : Int) (s : Store)
    (k : String) :
    (redisGet now s k = none → CacheService.get true now s k = JVal.jnull) ∧
    (∀ p, redisGet now s k = some p → jsonParse p = none →
      CacheService.get true now s k = JVal.jnull) := by
  constructor
  · intro h
    simp [CacheService.get, h]
  · intro p hp hparse
    simp only [CacheService.get, hp]
    by_cases he : p = ""
    · simp [he]
    · simp [he, hparse]

/-- Witness for C6: a store without the requested key, and a store
holding a syntactically corrupt payload under it. -/
theorem cacheGet_absent_and_corrupt_are_miss_witness :
    CacheService.get true 0 [] "movie:m1" = JVal.jnull ∧
      CacheService.get true 0 [CEntry.mk "movie:m1" "\x7bcorrupt" 10000]
        "movie:m1" = JVal.jnull :=
  ⟨(cacheGet_absent_and_corrupt_are_miss 0 [] "movie:m1").1 rfl,
   (cacheGet_absent_and_corrupt_are_miss 0
       [CEntry.mk "movie:m1" "\x7bcorrupt" 10000] "movie:m1").2
     "\x7bcorrupt" (by decide) (by decide)⟩

/-! ## C7 -/

/-- C7: when the key-value store fails, no error reaches the caller:
`get` reports a miss, `set`/`delete`/`deletePattern` return normally
leaving the store untouched, and the rate-limit middleware admits the
request with no throttling response — every failure branch is total
and fail-open. -/
theorem store_failure_fail_open (now : Int) (s : Store) (k : String)
    (v : JVal) (ttl : Nat) (pat : String) (cfg : RateLimitOptions)
    (st : ZState) (nonce : String) :
    CacheService.get false now s k = JVal.jnull ∧
    CacheService.set false now k v ttl s = s ∧
    CacheService.delete false k s = s ∧
    CacheService.deletePattern false pat s = (s, 0) ∧
    rateLimitStep cfg false st now nonce = (st, rlFailOpen) ∧
    rlFailOpen.admitted = true := by
  refine ⟨rfl, rfl, rfl, rfl, rfl, rfl⟩

/-! ## C8 -/

/-- C8 (evaluation at the failing input): `getUserRatings("u1", page 1)`
caches its result under `ratings:user:u1:page:1`; the invalidation run
by `upsertRating`/`deleteRating` deletes only the exact key
`ratings:user:u1` plus movie-scoped patterns, so the page-1 entry
survives and a subsequent `get` still returns the stale value instead
of absent — the write path leaves its own entity's cache uncovered. -/
theorem staleUserRatings_after_rating_write :
    CacheService.get true 0
        (RatingService.invalidateAfterWrite "u1" "m1"
          (RatingService.getUserRatings 0 "u1" 1 (JVal.jstr "old") []).2)
        (RatingService.userRatingsKey "u1" 1) = JVal.jstr "old" := by
  decide

/-! ## C10 -/

/-- C10: caching the JS value `null` is indistinguishable from a miss:
after `set(k, null, ttl)` a `get(k)` within the TTL parses the stored
payload `"null"` back to `null`, the very value that signals absence,
exactly as a `get` of a key with no live entry does — so callers
cannot cache a null result to suppress recomputation. -/
theorem cached_null_reads_as_miss (now t : Int) (k : String) (ttl : Nat)
    (s : Store) (h : t < now + (ttl : Int) * 1000) :
    CacheService.get true t (CacheService.set true now k JVal.jnull ttl s) k
        = JVal.jnull ∧
    (∀ s2 : Store, redisGet t s2 k = none →
      CacheService.get true t s2 k = JVal.jnull) := by
  constructor
  · have hfind :
        List.find? (fun e => e.key == k && decide (t < e.expiresAt))
            (CEntry.mk k (jsonStringify JVal.jnull) (now + (ttl : Int) * 1000) ::
              s.filter (fun e => e.key != k))
          = some (CEntry.mk k (jsonStringify JVal.jnull) (now + (ttl : Int) * 1000)) := by
      apply List.find?_cons_of_pos
      simp [h]
    simp only [CacheService.set, if_true, CacheService.get, redisGet, hfind]
    simp [jsonStringify, jsonParse]
  · intro s2 h2
    simp [CacheService.get, h2]

/-- Witness for C10: a concrete set-null followed by an in-TTL get. -/
theorem cached_null_reads_as_miss_witness :
    CacheService.get true 50000
        (CacheService.set true 0 "ratings:movie:m1" JVal.jnull 300 [])
        "ratings:movie:m1" = JVal.jnull :=
  (cached_null_reads_as_miss 0 50000 "ratings:movie:m1" 300 [] (by decide)).1

/-! ## C9 -/

/-- Purging movie-related caches twice leaves the same store as once. -/
lemma invalidateMovie_idem (m : String) (s : Store) :
    CacheService.invalidateMovie m (CacheService.invalidateMovie m s)
      = CacheService.invalidateMovie m s := by
  simp only [CacheService.invalidateMovie, CacheService.delete,
    CacheService.deletePattern, if_true, List.filter_filter]
  apply List.filter_congr
  intro e _
  generalize (e.key != (CacheService.PREFIXES.MOVIE ++ m)) = b1
  generalize globMatch (CacheService.PREFIXES.MOVIES_LIST ++ "*") e.key = b2
  generalize globMatch (CacheService.PREFIXES.SEARCH ++ "*") e.key = b3
  generalize globMatch (CacheService.PREFIXES.COMMENTS ++ "movie:" ++ m ++ "*") e.key = b4
  generalize globMatch (CacheService.PREFIXES.RATINGS ++ "movie:" ++ m ++ "*") e.key = b5
  revert b1 b2 b3 b4 b5
  decide

/-- Purging user-related caches twice leaves the same store as once. -/
lemma invalidateUser_idem (u : String) (s : Store) :
    CacheService.invalidateUser u (CacheService.invalidateUser u s)
      = CacheService.invalidateUser u s := by
  simp only [CacheService.invalidateUser, CacheService.delete,
    CacheService.deletePattern, if_true, List.filter_filter]
  apply List.filter_congr
  intro e _
  generalize (e.key != (CacheService.PREFIXES.USER ++ u)) = b1
  generalize globMatch (CacheService.PREFIXES.FAVORITES ++ "user:" ++ u ++ "*") e.key = b2
  generalize globMatch (CacheService.PREFIXES.WATCHED ++ "user:" ++ u ++ "*") e.key = b3
  generalize globMatch (CacheService.PREFIXES.RATINGS ++ "user:" ++ u ++ "*") e.key = b4
  generalize globMatch (CacheService.PREFIXES.COMMENTS ++ "user:" ++ u ++ "*") e.key = b5
  revert b1 b2 b3 b4 b5
  decide

/-- C9: every invalidation-coordinator operation is idempotent — from
any starting store, running it twice ends in the same state as running
it once — and running it on a store with no matching keys (e.g. the
empty store) completes normally, leaving the store as it was. -/
theorem invalidation_idempotent (m u : String) (s : Store) :
    CacheService.invalidateMovie m (CacheService.invalidateMovie m s)
        = CacheService.invalidateMovie m s ∧
    CacheService.invalidateUser u (CacheService.invalidateUser u s)
        = CacheService.invalidateUser u s ∧
    CacheService.invalidateSearches (CacheService.invalidateSearches s)
        = CacheService.invalidateSearches s ∧
    CacheService.invalidateLists (CacheService.invalidateLists s)
        = CacheService.invalidateLists s ∧
    CacheService.invalidateMovie m [] = [] ∧
    CacheService.invalidateUser u [] = [] := by
  refine ⟨invalidateMovie_idem m s, invalidateUser_idem u s, ?_, ?_, ?_, ?_⟩
  · exact filter_self_idem _ s
  · exact filter_self_idem _ s
  · rfl
  · rfl

/-! ## C2 -/

/-- A `get` on a store holding no entry at the requested key misses. -/
lemma get_jnull_of_no_key (now : Int) (s : Store) (k : String)
    (h : ∀ e ∈ s, e.key ≠ k) : CacheService.get true now s k = JVal.jnull := by
  have hf : s.find? (fun e => e.key == k && decide (now < e.expiresAt)) = none :=
    List.find?_eq_none.mpr (fun e he => by simp [h e he])
  simp [CacheService.get, redisGet, hf]

/-- Every entry surviving `invalidateMovie m` has a key different from
`movie:m` and matching neither `movies:list:*` nor `search:*`. -/
lemma mem_invalidateMovie {e : CEntry} {m : String} {s : Store}
    (h : e ∈ CacheService.invalidateMovie m s) :
    e.key ≠ CacheService.PREFIXES.MOVIE ++ m ∧
    globMatch (CacheService.PREFIXES.MOVIES_LIST ++ "*") e.key = false ∧
    globMatch (CacheService.PREFIXES.SEARCH ++ "*") e.key = false := by
  simp only [CacheService.invalidateMovie, CacheService.delete,
    CacheService.deletePattern, if_true] at h
  obtain ⟨h4, -⟩ := List.mem_filter.mp h
  obtain ⟨h3, -⟩ := List.mem_filter.mp h4
  obtain ⟨h2, hsearch⟩ := List.mem_filter.mp h3
  obtain ⟨h1, hlists⟩ := List.mem_filter.mp h2
  obtain ⟨-, hkey⟩ := List.mem_filter.mp h1
  exact ⟨bne_iff_ne.mp hkey, (Bool.not_eq_true' _).mp hlists,
    (Bool.not_eq_true' _).mp hsearch⟩

/-- C2: immediately after `updateMovie(M, data)` returns successfully,
a cache `get` of `movie:M` misses, and a `get` of any key matching
`movies:list:*` or `search:*` misses as well (the invalidation runs
before `updateMovie` returns, so no later read can have repopulated
the purged namespaces yet). -/
theorem updateMovie_purges_movie_lists_search (b : Bool) (M : String)
    (s s2 : Store) (now : Int)
    (h : MovieService.updateMovie b M s = Except.ok s2) :
    CacheService.get true now s2 ("movie:" ++ M) = JVal.jnull ∧
    (∀ k, globMatch "movies:list:*" k = true →
      CacheService.get true now s2 k = JVal.jnull) ∧
    (∀ k, globMatch "search:*" k = true →
      CacheService.get true now s2 k = JVal.jnull) := by
  cases b with
  | false => simp [MovieService.updateMovie] at h
  | true =>
    simp only [MovieService.updateMovie, if_true, Except.ok.injEq] at h
    subst h
    refine ⟨?_, ?_, ?_⟩
    · apply get_jnull_of_no_key
      intro e he
      have hk := (mem_invalidateMovie he).1
      simpa [CacheService.PREFIXES.MOVIE] using hk
    · intro k hk
      apply get_jnull_of_no_key
      intro e he hek
      have h2 := (mem_invalidateMovie he).2.1
      rw [hek, show CacheService.PREFIXES.MOVIES_LIST ++ "*" = "movies:list:*" from rfl] at h2
      exact absurd hk (by simp [h2])
    · intro k hk
      apply get_jnull_of_no_key
      intro e he hek
      have h2 := (mem_invalidateMovie he).2.2
      rw [hek, show CacheService.PREFIXES.SEARCH ++ "*" = "search:*" from rfl] at h2
      exact absurd hk (by simp [h2])

/-- Witness for C2: a concrete store holding a movie entry, a list
entry and a search entry, all gone after the update. -/
theorem updateMovie_purges_movie_lists_search_witness :
    CacheService.get true 0
        (CacheService.invalidateMovie "m1"
          [CEntry.mk "movie:m1" "1" 99999, CEntry.mk "movies:list:x" "2" 99999,
           CEntry.mk "search:q" "3" 99999])
        ("movie:" ++ "m1") = JVal.jnull :=
  (updateMovie_purges_movie_lists_search true "m1"
      [CEntry.mk "movie:m1" "1" 99999, CEntry.mk "movies:list:x" "2" 99999,
       CEntry.mk "search:q" "3" 99999]
      (CacheService.invalidateMovie "m1"
        [CEntry.mk "movie:m1" "1" 99999, CEntry.mk "movies:list:x" "2" 99999,
         CEntry.mk "search:q" "3" 99999])
      0 rfl).1

/-! ## C3 -/

/-- C3: for any limiter configuration and any request whose
pre-insertion in-window count reaches `max`, the middleware rejects
with status 429, `Retry-After` equal to the window duration, the JSON
error body, `X-RateLimit-Limit = max` and `X-RateLimit-Remaining =
max(0, max - count - 1)`; a request whose pre-insertion count is below
`max` is admitted. -/
theorem rateLimit_throttle_response (cfg : RateLimitOptions) (st : ZState)
    (now : Int) (nonce : String) :
    (cfg.max ≤ rlPreCount cfg st now →
      (rateLimitStep cfg true st now nonce).2.admitted = false ∧
      (rateLimitStep cfg true st now nonce).2.statusCode = some 429 ∧
      (rateLimitStep cfg true st now nonce).2.retryAfter = some cfg.timeWindow ∧
      (rateLimitStep cfg true st now nonce).2.body
        = some (RlBody.mk 429 "Too Many Requests" cfg.errorMessage cfg.timeWindow) ∧
      (rateLimitStep cfg true st now nonce).2.limit = some cfg.max ∧
      (rateLimitStep cfg true st now nonce).2.remaining
        = some (max 0 ((cfg.max : Int) - (rlPreCount cfg st now : Int) - 1))) ∧
    (rlPreCount cfg st now < cfg.max →
      (rateLimitStep cfg true st now nonce).2.admitted = true) := by
  have hstep : (rateLimitStep cfg true st now nonce).2
      = rlResponse cfg now (rlPreCount cfg st now) := rfl
  constructor
  · intro h
    rw [hstep]
    simp [rlResponse, h]
  · intro h
    rw [hstep]
    simp [rlResponse, Nat.not_le.mpr h]

/-- Witness for C3: a full window (count 1, max 1) rejects; an empty
window admits. -/
theorem rateLimit_throttle_response_witness :
    (rateLimitStep ⟨1, 60, "m"⟩ true ⟨[(0, "0-a")], 100000⟩ 5 "z").2.statusCode
        = some 429 ∧
      (rateLimitStep ⟨1, 60, "m"⟩ true ZState.empty 5 "z").2.admitted = true :=
  ⟨((rateLimit_throttle_response ⟨1, 60, "m"⟩ ⟨[(0, "0-a")], 100000⟩ 5 "z").1
      (by decide)).2.1,
   (rateLimit_throttle_response ⟨1, 60, "m"⟩ ZState.empty 5 "z").2 (by decide)⟩

/-! ## C4 and C5: burst lemmas -/

/-- The `admitted` flag of a response is exactly "the pre-insertion
count was below the configured maximum". -/
lemma rlResponse_admitted (cfg : RateLimitOptions) (t : Int) (c : Nat) :
    (rlResponse cfg t c).admitted = decide (c < cfg.max) := by
  unfold rlResponse
  split
  · next h => simp [Nat.not_lt.mpr h]
  · next h => simp [Nat.lt_of_not_le h]

/-- As long as every request of a sequence falls inside one window of
every other (and inside the window of every pre-existing entry, which
the key's expiry also outlives), no entry is ever pruned: the run
appends one member per request and judges the i-th request against
pre-insertion count `E.length + i`. -/
lemma rateLimitRun_burst (cfg : RateLimitOptions) :
    ∀ (reqs : List (Int × String)) (E : List (Int × String)) (X : Int),
    (∀ r ∈ reqs, ∀ e ∈ E, r.1 - (cfg.timeWindow : Int) * 1000 < e.1) →
    (∀ r ∈ reqs, E ≠ [] → r.1 < X) →
    (∀ a ∈ reqs, ∀ b ∈ reqs, a.1 - b.1 < (cfg.timeWindow : Int) * 1000) →
    ((E.map Prod.snd) ++ reqs.map (fun r => rlMember r.1 r.2)).Nodup →
    rateLimitRun cfg ⟨E, X⟩ reqs
      = (⟨E ++ reqs.map (fun r => (r.1, rlMember r.1 r.2)), rlExpAfter cfg X reqs⟩,
         burstResponses cfg E.length reqs) := by
  intro reqs
  induction reqs with
  | nil =>
    intro E X _ _ _ _
    simp [rateLimitRun, rlExpAfter, burstResponses]
  | cons hd rest ih =>
    intro E X hE hX hw hm
    obtain ⟨t, n⟩ := hd
    have hmem_head : rlMember t n ∉ E.map Prod.snd := by
      rw [List.nodup_append] at hm
      exact fun hin => hm.2.2 hin (by simp)
    have hlive : (if X ≤ t then ([] : List (Int × String)) else E) = E := by
      rcases eq_or_ne E [] with hE0 | hE0
      · subst hE0; split <;> rfl
      · rw [if_neg (not_le.mpr (hX (t, n) (by simp) hE0))]
    have hpruned : rlPrune cfg ⟨E, X⟩ t = E := by
      unfold rlPrune
      simp only [hlive]
      apply List.filter_eq_self.mpr
      intro e he
      have h1 : ¬ (e.1 ≤ t - (cfg.timeWindow : Int) * 1000) := by
        have := hE (t, n) (by simp) e he
        omega
      simp [h1]
    have hzadd : zadd E t (rlMember t n) = E ++ [(t, rlMember t n)] := by
      have hfalse : ¬ (E.any (fun e => e.2 == rlMember t n) = true) := by
        intro hany
        rw [List.any_eq_true] at hany
        obtain ⟨e, he, heq⟩ := hany
        exact hmem_head (beq_iff_eq.mp heq ▸ List.mem_map_of_mem Prod.snd he)
      unfold zadd
      rw [if_neg hfalse]
    have hstep : rateLimitStep cfg true ⟨E, X⟩ t n
        = (⟨E ++ [(t, rlMember t n)], t + (cfg.timeWindow : Int) * 1000⟩,
           rlResponse cfg t E.length) := by
      simp only [rateLimitStep, if_true, hpruned, hzadd]
    have hrec := ih (E ++ [(t, rlMember t n)]) (t + (cfg.timeWindow : Int) * 1000)
      (by
        intro r hr e he
        rcases List.mem_append.mp he with h1 | h1
        · exact hE r (List.mem_cons_of_mem _ hr) e h1
        · have he2 : e = (t, rlMember t n) := by simpa using h1
          subst he2
          have h2 : r.1 - t < (cfg.timeWindow : Int) * 1000 := by
            simpa using hw r (List.mem_cons_of_mem _ hr) (t, n) (by simp)
          show r.1 - (cfg.timeWindow : Int) * 1000 < t
          omega)
      (by
        intro r hr _
        have := hw r (List.mem_cons_of_mem _ hr) (t, n) (by simp)
        omega)
      (fun a ha b hb => hw a (List.mem_cons_of_mem _ ha) b (List.mem_cons_of_mem _ hb))
      (by
        have h1 : (E ++ [(t, rlMember t n)]).map Prod.snd
            = E.map Prod.snd ++ [rlMember t n] := by simp
        rw [h1, List.append_assoc, List.singleton_append]
        simpa using hm)
    simp only [rateLimitRun, hstep, hrec]
    simp [burstResponses, rlExpAfter, List.append_assoc]

/-- A burst produces one response per request. -/
lemma burstResponses_length (cfg : RateLimitOptions) :
    ∀ (k : Nat) (reqs : List (Int × String)),
      (burstResponses cfg k reqs).length = reqs.length := by
  intro k reqs
  induction reqs generalizing k with
  | nil => rfl
  | cons hd rest ih =>
    obtain ⟨t, n⟩ := hd
    simp [burstResponses, ih]

/-- The i-th response of a burst judges the i-th request against
pre-insertion count `k + i`. -/
lemma burstResponses_getElem (cfg : RateLimitOptions) :
    ∀ (reqs : List (Int × String)) (k i : Nat),
      (burstResponses cfg k reqs)[i]?
        = (reqs[i]?).map (fun r => rlResponse cfg r.1 (k + i)) := by
  intro reqs
  induction reqs with
  | nil => intro k i; simp [burstResponses]
  | cons hd rest ih =>
    intro k i
    obtain ⟨t, n⟩ := hd
    cases i with
    | zero => simp [burstResponses]
    | succ j =>
      simp only [burstResponses, List.getElem?_cons_succ, ih (k + 1) j]
      have harith : k + 1 + j = k + (j + 1) := by omega
      rw [harith]

/-- The key expiry after a nonempty run is the last request's instant
plus the window duration. -/
lemma rlExpAfter_getLast (cfg : RateLimitOptions) :
    ∀ (l : List (Int × String)) (x : Int) (q : Int × String),
      l.getLast? = some q →
      rlExpAfter cfg x l = q.1 + (cfg.timeWindow : Int) * 1000 := by
  intro l
  induction l with
  | nil => intro x q h; simp at h
  | cons hd rest ih =>
    intro x q h
    obtain ⟨t, n⟩ := hd
    cases rest with
    | nil =>
      have : q = (t, n) := by simpa using h.symm
      subst this
      rfl
    | cons b tl =>
      rw [List.getLast?_cons_cons] at h
      obtain ⟨tb, nb⟩ := b
      exact ih (t + (cfg.timeWindow : Int) * 1000) q h

/-- At most `max - k` responses of a burst starting at count `k` are
admissions. -/
lemma burst_admitted_le (cfg : RateLimitOptions) :
    ∀ (reqs : List (Int × String)) (k : Nat),
      ((burstResponses cfg k reqs).filter (fun r => r.admitted)).length
        ≤ cfg.max - k := by
  intro reqs
  induction reqs with
  | nil => intro k; simp [burstResponses]
  | cons hd rest ih =>
    intro k
    obtain ⟨t, n⟩ := hd
    simp only [burstResponses, List.filter_cons, rlResponse_admitted]
    by_cases hk : k < cfg.max
    · rw [if_pos (by simpa using hk)]
      have := ih (k + 1)
      simp only [List.length_cons]
      omega
    · rw [if_neg (by simpa using hk)]
      have := ih (k + 1)
      omega

/-! ## C5 -/

/-- C5: if `K > max` requests against one limiter key are all issued
within one window of each other (their members pairwise distinct, as
the random suffixes ensure), then however the store serializes their
atomic remove/count/insert/expire batches, at most `max` of them are
admitted: each batch observes every earlier insertion, so no two
requests can both act on a stale count. -/
theorem rateLimit_concurrent_at_most_max (cfg : RateLimitOptions)
    (reqs : List (Int × String))
    (hK : cfg.max < reqs.length)
    (hw : ∀ a ∈ reqs, ∀ b ∈ reqs, a.1 - b.1 < (cfg.timeWindow : Int) * 1000)
    (hm : (reqs.map (fun r => rlMember r.1 r.2)).Nodup) :
    ((rateLimitRun cfg ZState.empty reqs).2.filter (fun r => r.admitted)).length
      ≤ cfg.max := by
  have h := rateLimitRun_burst cfg reqs [] 0 (by simp) (by simp) hw
    (by simpa using hm)
  rw [show ZState.empty = (⟨[], 0⟩ : ZState) from rfl, h]
  simpa using burst_admitted_le cfg reqs 0

/-- Witness for C5: four concurrent requests, `max = 2`, serialized in
timestamp-scrambled order; at most two admissions. -/
theorem rateLimit_concurrent_at_most_max_witness :
    ((rateLimitRun ⟨2, 1, "m"⟩ ZState.empty
        [(9, "a"), (0, "b"), (7, "c"), (5, "d")]).2.filter
      (fun r => r.admitted)).length ≤ 2 :=
  rateLimit_concurrent_at_most_max ⟨2, 1, "m"⟩
    [(9, "a"), (0, "b"), (7, "c"), (5, "d")] (by decide) (by decide) (by decide)

/-! ## C4 -/

/-- C4 counterexample: with `max = 1` and a 1-second window, requests
at t=0ms (admitted), t=500ms (rejected, but its timestamp is still
inserted) and t=1000ms — exactly W seconds after the first request —
the third request is rejected with 429, whereas the claim promises it
is admitted again.  Also, a recorded timestamp whose score equals
`now - W` exactly (score 0 at now=1000ms, W=1s) is removed by the
batch although it is not strictly before `now - W`. -/
theorem rateLimit_window_claim_counterexample :
    ((rateLimitRun ⟨1, 1, "m"⟩ ZState.empty [(0, "a"), (500, "b"), (1000, "c")]).2.map
        (fun r => (r.admitted, r.statusCode)))
      = [(true, none), (false, some 429), (false, some 429)] ∧
    ((rateLimitStep ⟨1, 1, "m"⟩ true ⟨[(0, "0-m")], 5000⟩ 1000 "z").1.entries.map
        Prod.fst) = [1000] := by
  exact ⟨by decide, by decide⟩

/-- C4 (amended): from an empty window with `max = N ≥ 1` and window
`W`, any `N + 1` requests issued within `W` seconds of the first are
judged against pre-insertion counts `0, 1, …, N`: the first `N` are
admitted and the `(N+1)`th is rejected with status 429 and a
`Retry-After` of exactly the window duration (hence `≤ W`).  On every
request the batch removes exactly the recorded timestamps at or before
`now - W` (boundary inclusive, not strictly before) and inserts the
request's own timestamp even when the request is rejected; because the
rejected request's timestamp occupies the window, readmission is
guaranteed `W` seconds after the *last* request of the burst, not `W`
seconds after the first. -/
theorem rateLimit_window_behavior_amended (cfg : RateLimitOptions)
    (reqs : List (Int × String)) (t0 : Int)
    (hmax1 : 1 ≤ cfg.max)
    (hlen : reqs.length = cfg.max + 1)
    (ht : ∀ r ∈ reqs, t0 ≤ r.1 ∧ r.1 < t0 + (cfg.timeWindow : Int) * 1000)
    (hm : (reqs.map (fun r => rlMember r.1 r.2)).Nodup) :
    (rateLimitRun cfg ZState.empty reqs).2.length = cfg.max + 1 ∧
    (∀ i r, i < cfg.max → ((rateLimitRun cfg ZState.empty reqs).2)[i]? = some r →
      r.admitted = true) ∧
    (∀ r, ((rateLimitRun cfg ZState.empty reqs).2)[cfg.max]? = some r →
      r.admitted = false ∧ r.statusCode = some 429 ∧
      r.retryAfter = some cfg.timeWindow ∧ cfg.timeWindow ≤ cfg.timeWindow ∧
      r.body = some (RlBody.mk 429 "Too Many Requests" cfg.errorMessage
        cfg.timeWindow)) ∧
    (∀ q nonce, reqs.getLast? = some q →
      (rateLimitStep cfg true (rateLimitRun cfg ZState.empty reqs).1
          (q.1 + (cfg.timeWindow : Int) * 1000) nonce).2.admitted = true) ∧
    (∀ st now nonce, now < st.expiresAt →
      rlMember now nonce ∉ st.entries.map Prod.snd →
      (rateLimitStep cfg true st now nonce).1.entries
        = st.entries.filter
            (fun e => !(decide (0 ≤ e.1) &&
              decide (e.1 ≤ now - (cfg.timeWindow : Int) * 1000)))
          ++ [(now, rlMember now nonce)]) := by
  have hw : ∀ a ∈ reqs, ∀ b ∈ reqs, a.1 - b.1 < (cfg.timeWindow : Int) * 1000 := by
    intro a ha b hb
    have h1 := (ht a ha).2
    have h2 := (ht b hb).1
    omega
  have hrun : rateLimitRun cfg ZState.empty reqs
      = (⟨reqs.map (fun r => (r.1, rlMember r.1 r.2)), rlExpAfter cfg 0 reqs⟩,
         burstResponses cfg 0 reqs) := by
    rw [show ZState.empty = (⟨[], 0⟩ : ZState) from rfl]
    simpa using rateLimitRun_burst cfg reqs [] 0 (by simp) (by simp) hw
      (by simpa using hm)
  refine ⟨?_, ?_, ?_, ?_, ?_⟩
  · rw [hrun]
    simp [burstResponses_length, hlen]
  · intro i r hi hr
    rw [hrun] at hr
    simp only [burstResponses_getElem] at hr
    obtain ⟨q, -, hq2⟩ := Option.map_eq_some'.mp hr
    rw [← hq2, rlResponse_admitted]
    simp
    omega
  · intro r hr
    rw [hrun] at hr
    simp only [burstResponses_getElem] at hr
    obtain ⟨q, -, hq2⟩ := Option.map_eq_some'.mp hr
    rw [← hq2]
    unfold rlResponse
    rw [if_pos (by omega)]
    exact ⟨rfl, rfl, rfl, le_rfl, rfl⟩
  · intro q nonce hlast
    rw [hrun]
    have hexp : rlExpAfter cfg 0 reqs = q.1 + (cfg.timeWindow : Int) * 1000 :=
      rlExpAfter_getLast cfg reqs 0 q hlast
    have hprune : rlPrune cfg
        ⟨reqs.map (fun r => (r.1, rlMember r.1 r.2)), rlExpAfter cfg 0 reqs⟩
        (q.1 + (cfg.timeWindow : Int) * 1000) = [] := by
      unfold rlPrune
      rw [if_pos (by rw [hexp])]
      rfl
    have hresp : (rateLimitStep cfg true
        ⟨reqs.map (fun r => (r.1, rlMember r.1 r.2)), rlExpAfter cfg 0 reqs⟩
        (q.1 + (cfg.timeWindow : Int) * 1000) nonce).2
        = rlResponse cfg (q.1 + (cfg.timeWindow : Int) * 1000) 0 := by
      simp only [rateLimitStep, if_true, hprune]
      rfl
    rw [hresp, rlResponse_admitted]
    simp
    omega
  · intro st now nonce hlt hfresh
    have hlive : (if st.expiresAt ≤ now then ([] : List (Int × String))
        else st.entries) = st.entries := if_neg (not_le.mpr hlt)
    have hzadd : zadd
        (st.entries.filter (fun e => !(decide (0 ≤ e.1) &&
          decide (e.1 ≤ now - (cfg.timeWindow : Int) * 1000))))
        now (rlMember now nonce)
        = st.entries.filter (fun e => !(decide (0 ≤ e.1) &&
            decide (e.1 ≤ now - (cfg.timeWindow : Int) * 1000)))
          ++ [(now, rlMember now nonce)] := by
      have hfalse : ¬ ((st.entries.filter (fun e => !(decide (0 ≤ e.1) &&
          decide (e.1 ≤ now - (cfg.timeWindow : Int) * 1000)))).any
            (fun e => e.2 == rlMember now nonce) = true) := by
        intro hany
        rw [List.any_eq_true] at hany
        obtain ⟨e, he, heq⟩ := hany
        exact hfresh (beq_iff_eq.mp heq ▸
          List.mem_map_of_mem Prod.snd (List.mem_filter.mp he).1)
      unfold zadd
      rw [if_neg hfalse]
    show (rateLimitStep cfg true st now nonce).1.entries = _
    simp only [rateLimitStep, if_true]
    show zadd (rlPrune cfg st now) now (rlMember now nonce) = _
    unfold rlPrune
    rw [hlive, hzadd]

/-- Witness for the amended C4 at a concrete burst: `max = 2`, window
1s, three requests inside the window. -/
theorem rateLimit_window_behavior_amended_witness :
    (rateLimitRun ⟨2, 1, "m"⟩ ZState.empty
        [(0, "a"), (10, "b"), (20, "c")]).2.length = 2 + 1 :=
  (rateLimit_window_behavior_amended ⟨2, 1, "m"⟩
      [(0, "a"), (10, "b"), (20, "c")] 0 (by decide) (by decide) (by decide)
      (by decide)).1
